/-
Verification of the gros repository (Schwarzschild geodesic integrator).

Shallow embedding conventions:
- Python floats are modelled as real numbers; where only order comparisons
  and field operations matter (the generator control loop of
  trajectory_generator), they are modelled as rationals so that the
  embedding stays executable and decidable.
- numpy arrays of fixed length are functions out of Fin n; list-shaped
  data (the trajectory rows handed to SpaceTimeData) are Lean lists.
- A Python function that can raise is embedded with an Except codomain;
  a raise statement becomes Except.error, normal return becomes Except.ok.
- The scipy RK45 solver is external library code; the generator loop of
  SchwarzschildMetric.trajectory_generator is embedded over an abstract
  sequence of solver states (the values of the pair (ode_solver.t,
  ode_solver.y) after k calls of step), which is exactly how the loop in
  schwarzschild.py consumes the solver.
-/
import Mathlib

open Real

/-- Modelled from the spec: the module gros.utils.const is not present in
the sources (only its callers are); the spec names the two universal
constants G and c. The numeric values are the standard ones, consistent
with the example in the spec (a solar mass of 1.989e30 kg gives a
Schwarzschild radius of about 2953 m). Speed of light in m/s. -/
noncomputable def c : ℝ := 299792458

/-- Modelled from the spec: gravitational constant in SI units, see c. -/
noncomputable def G : ℝ := 6.674e-11

/-- From transforms.py, spherical_to_cartesian: position transform
x = r sin(theta) cos(phi), y = r sin(theta) sin(phi), z = r cos(theta). -/
noncomputable def spherical_to_cartesian (r theta phi : ℝ) : ℝ × ℝ × ℝ :=
  (r * Real.sin theta * Real.cos phi,
   r * Real.sin theta * Real.sin phi,
   r * Real.cos theta)

/-- Modelled from the spec: the standard two-argument arctangent used by
the Cartesian-to-spherical inverse. The repository declares the inverse
direction (CoordinateConversion.cartesian_to_spherical in transforms.py)
but does not implement it; the spec describes the inverse as the standard
one, whose azimuth is atan2. -/
noncomputable def atan2 (y x : ℝ) : ℝ :=
  if 0 < x then Real.arctan (y / x)
  else if x < 0 then
    (if 0 ≤ y then Real.arctan (y / x) + π else Real.arctan (y / x) - π)
  else
    (if 0 < y then π / 2 else if y < 0 then -(π / 2) else 0)

/-- Modelled from the spec: the standard Cartesian-to-spherical inverse
r = sqrt (x^2 + y^2 + z^2), theta = arccos (z / r), phi = atan2 y x.
This direction is declared but unimplemented in transforms.py. -/
noncomputable def cartesian_to_spherical (x y z : ℝ) : ℝ × ℝ × ℝ :=
  (Real.sqrt (x ^ 2 + y ^ 2 + z ^ 2),
   Real.arccos (z / Real.sqrt (x ^ 2 + y ^ 2 + z ^ 2)),
   atan2 y x)

/-- From schwarzschild.py, SchwarzschildMetric._calc_christoffel_symbols:
the 4x4x4 tensor of Christoffel symbols at coordinates (r, theta) for
metric parameter a (the instance field self.a, equal to minus the
Schwarzschild radius). Entries not assigned in the source are zero, as in
the numpy zeros array the source starts from. -/
noncomputable def calc_christoffel_symbols (a r theta : ℝ) :
    Fin 4 → Fin 4 → Fin 4 → ℝ := fun i j k =>
  match i, j, k with
  | ⟨0, _⟩, ⟨0, _⟩, ⟨1, _⟩ => -0.5 * a / (r ^ 2 * (1 + a / r))
  | ⟨0, _⟩, ⟨1, _⟩, ⟨0, _⟩ => -0.5 * a / (r ^ 2 * (1 + a / r))
  | ⟨1, _⟩, ⟨0, _⟩, ⟨0, _⟩ => -0.5 * (1 + a / r) * c ^ 2 * (a / r) / r
  | ⟨1, _⟩, ⟨1, _⟩, ⟨1, _⟩ => -(-0.5 * a / (r ^ 2 * (1 + a / r)))
  | ⟨2, _⟩, ⟨1, _⟩, ⟨2, _⟩ => 1 / r
  | ⟨2, _⟩, ⟨2, _⟩, ⟨1, _⟩ => 1 / r
  | ⟨1, _⟩, ⟨2, _⟩, ⟨2, _⟩ => -1 * (r + a)
  | ⟨3, _⟩, ⟨1, _⟩, ⟨3, _⟩ => 1 / r
  | ⟨3, _⟩, ⟨3, _⟩, ⟨1, _⟩ => 1 / r
  | ⟨1, _⟩, ⟨3, _⟩, ⟨3, _⟩ => -1 * (r + a) * Real.sin theta ^ 2
  | ⟨3, _⟩, ⟨2, _⟩, ⟨3, _⟩ => 1 / Real.tan theta
  | ⟨3, _⟩, ⟨3, _⟩, ⟨2, _⟩ => 1 / Real.tan theta
  | ⟨2, _⟩, ⟨3, _⟩, ⟨3, _⟩ => -1 * Real.sin theta * Real.cos theta
  | _, _, _ => 0

/-- The Christoffel table exactly as the specification lists it
(section 4.2 of the spec and claim C3): the nine independent nonzero
component families with their closed forms, every other entry zero.
Written independently of the source function for comparison with it. -/
noncomputable def christoffel_symbols_spec (a r theta : ℝ) :
    Fin 4 → Fin 4 → Fin 4 → ℝ := fun i j k =>
  match i, j, k with
  | ⟨0, _⟩, ⟨0, _⟩, ⟨1, _⟩ => -0.5 * a / (r ^ 2 * (1 + a / r))
  | ⟨0, _⟩, ⟨1, _⟩, ⟨0, _⟩ => -0.5 * a / (r ^ 2 * (1 + a / r))
  | ⟨1, _⟩, ⟨0, _⟩, ⟨0, _⟩ => -0.5 * (1 + a / r) * c ^ 2 * (a / r) / r
  | ⟨1, _⟩, ⟨1, _⟩, ⟨1, _⟩ => -(-0.5 * a / (r ^ 2 * (1 + a / r)))
  | ⟨2, _⟩, ⟨1, _⟩, ⟨2, _⟩ => 1 / r
  | ⟨2, _⟩, ⟨2, _⟩, ⟨1, _⟩ => 1 / r
  | ⟨1, _⟩, ⟨2, _⟩, ⟨2, _⟩ => -(r + a)
  | ⟨3, _⟩, ⟨1, _⟩, ⟨3, _⟩ => 1 / r
  | ⟨3, _⟩, ⟨3, _⟩, ⟨1, _⟩ => 1 / r
  | ⟨1, _⟩, ⟨3, _⟩, ⟨3, _⟩ => -(r + a) * Real.sin theta ^ 2
  | ⟨3, _⟩, ⟨2, _⟩, ⟨3, _⟩ => Real.cot theta
  | ⟨3, _⟩, ⟨3, _⟩, ⟨2, _⟩ => Real.cot theta
  | ⟨2, _⟩, ⟨3, _⟩, ⟨3, _⟩ => -(Real.sin theta * Real.cos theta)
  | _, _, _ => 0

/-- From schwarzschild.py, SchwarzschildMetric._calc_next_velo_and_acc_vec:
the right-hand side of the geodesic ODE system. The source takes the
proper time as first parameter and never reads it; vec_x_u is the
8-component state [t, r, theta, phi, dt/dtau, dr/dtau, dtheta/dtau,
dphi/dtau]. -/
noncomputable def calc_next_velo_and_acc_vec (a : ℝ) (proper_time : ℝ)
    (vec_x_u : Fin 8 → ℝ) : Fin 8 → ℝ := fun i =>
  let chs := calc_christoffel_symbols a (vec_x_u 1) (vec_x_u 2)
  match i with
  | ⟨0, _⟩ => vec_x_u 4
  | ⟨1, _⟩ => vec_x_u 5
  | ⟨2, _⟩ => vec_x_u 6
  | ⟨3, _⟩ => vec_x_u 7
  | ⟨4, _⟩ => -2 * chs 0 0 1 * vec_x_u 4 * vec_x_u 5
  | ⟨5, _⟩ => -1 * (chs 1 0 0 * vec_x_u 4 ^ 2 + chs 1 1 1 * vec_x_u 5 ^ 2
      + chs 1 2 2 * vec_x_u 6 ^ 2 + chs 1 3 3 * vec_x_u 7 ^ 2)
  | ⟨6, _⟩ => -2 * chs 2 2 1 * vec_x_u 6 * vec_x_u 5 - chs 2 3 3 * vec_x_u 7 ^ 2
  | ⟨7, _⟩ => -2 * (chs 3 1 3 * vec_x_u 5 * vec_x_u 7 + chs 3 2 3 * vec_x_u 6 * vec_x_u 7)
  | ⟨n + 8, h⟩ => absurd h (by omega)

/-- From schwarzschild.py, SchwarzschildMetric._calc_initial_dt_dtau:
the initial time velocity dt/dtau obtained from the normalization
condition, with vec_pos = (r, theta, phi) and vec_v the spatial
velocities. -/
noncomputable def calc_initial_dt_dtau (a : ℝ) (vec_pos vec_v : Fin 3 → ℝ) : ℝ :=
  let c2 := c ^ 2
  let temp1 := 1 / (c2 * (1 + a / vec_pos 0)) * vec_v 0 ^ 2
  let temp2 := vec_pos 0 ^ 2 / c2 * vec_v 1 ^ 2
  let temp3 := vec_pos 0 ^ 2 / c2 * Real.sin (vec_pos 1) ^ 2 * vec_v 2 ^ 2
  Real.sqrt ((1 + temp1 + temp2 + temp3) / (1 + a / vec_pos 0))

/-- From schwarzschild.py, calc_schwarzschild_radius: 2 G M / c^2. -/
noncomputable def calc_schwarzschild_radius (M : ℝ) : ℝ :=
  2 * G * M / c ^ 2

/-- The fields a Python SchwarzschildMetric instance carries after
construction (schwarzschild.py, SchwarzschildMetric.__init__). -/
structure SchwarzschildMetric where
  M : ℝ
  rs : ℝ
  a : ℝ
  initial_vec_x_u : Fin 8 → ℝ

/-- Python exception kinds raised by the embedded code. The source
messages are kept in comments next to each raise site. -/
inductive PyError where
  | valueError : PyError
  | attributeError : PyError
  | domainError : PyError
deriving DecidableEq

/-- From schwarzschild.py, SchwarzschildMetric.__init__: computes rs and
a = -rs, assembles the initial 8-component state as the horizontal stack
of time, the three positions, the initial dt/dtau and the three
velocities. The constructor has no raise statement, so it always returns
Except.ok; the Except codomain records that a Python constructor may in
principle fail. -/
noncomputable def SchwarzschildMetric.init (M : ℝ)
    (initial_vec_pos initial_vec_v : Fin 3 → ℝ) (time : ℝ) :
    Except PyError SchwarzschildMetric :=
  Except.ok
    { M := M
      rs := calc_schwarzschild_radius M
      a := -calc_schwarzschild_radius M
      initial_vec_x_u := fun i =>
        match i with
        | ⟨0, _⟩ => time
        | ⟨1, _⟩ => initial_vec_pos 0
        | ⟨2, _⟩ => initial_vec_pos 1
        | ⟨3, _⟩ => initial_vec_pos 2
        | ⟨4, _⟩ => calc_initial_dt_dtau (-calc_schwarzschild_radius M)
            initial_vec_pos initial_vec_v
        | ⟨5, _⟩ => initial_vec_v 0
        | ⟨6, _⟩ => initial_vec_v 1
        | ⟨7, _⟩ => initial_vec_v 2
        | ⟨n + 8, h⟩ => absurd h (by omega) }

/-- From schwarzschild.py, SchwarzschildMetric.schwarzschild_radius:
returns the stored rs field. -/
def SchwarzschildMetric.schwarzschild_radius (m : SchwarzschildMetric) : ℝ :=
  m.rs

/-- The scalar arguments the trajectory_generator in schwarzschild.py
passes to scipy integrate.RK45 when it constructs the solver. -/
structure RK45Params where
  t0 : ℝ
  t_bound : ℝ
  rtol : ℝ
  first_step : ℝ
  max_step : ℝ

/-- From schwarzschild.py, trajectory_generator: the RK45 construction
with t0 = proptime_start, t_bound = 1e100, rtol = 0.25 step_size,
first_step = 0.75 step_size, max_step = 5 step_size. -/
noncomputable def trajectory_generator_solver_params
    (proptime_start step_size : ℝ) : RK45Params :=
  { t0 := proptime_start
    t_bound := 1e100
    rtol := 0.25 * step_size
    first_step := 0.75 * step_size
    max_step := 5 * step_size }

/-- From schwarzschild.py, trajectory_generator: the check performed
after each solver step, on the new solver state (t, y). The source first
breaks when t has reached proptime_end and otherwise breaks when the
current radius y 1 is at most rs_border = rs * 1.01 with rs = -a.
Solver states are modelled over the rationals (machine floats are
rationals) so that the loop stays executable. -/
def stop_after_step (proptime_end a : ℚ) (t : ℚ) (y : Fin 8 → ℚ) : Bool :=
  let current_radius := y 1
  let rs := -a
  let rs_border := rs * 1.01
  decide (proptime_end ≤ t) || decide (current_radius ≤ rs_border)

/-- From schwarzschild.py, trajectory_generator: the yield loop. The
argument step abstracts the external scipy RK45 solver: step k is the
pair (ode_solver.t, ode_solver.y) after k calls of ode_solver.step(),
step 0 being the initial state. From iteration index k the loop yields
step k, advances the solver, and stops without yielding further when the
post-step state satisfies stop_after_step; fuel bounds how many
iterations are unrolled (the Python loop itself is unbounded). -/
def trajectory_yields (step : ℕ → ℚ × (Fin 8 → ℚ)) (proptime_end a : ℚ) :
    ℕ → ℕ → List (ℚ × (Fin 8 → ℚ))
  | _, 0 => []
  | k, fuel + 1 =>
    step k ::
      (if stop_after_step proptime_end a (step (k + 1)).1 (step (k + 1)).2 then
        []
      else
        trajectory_yields step proptime_end a (k + 1) fuel)

/-- From datahandling.py, SpaceTimeData: rs, the animation frame bound,
and df, the pandas DataFrame. The df field is None exactly when the
constructor skipped building it (trajectory.any() false, that is, every
entry zero); otherwise it holds the trajectory rows, which end up
converted to Cartesian because the in-place conversion loop writes
through the memory the DataFrame wraps. -/
structure SpaceTimeData where
  rs : ℝ
  max_num_anim_frames : ℕ
  df : Option (List (List ℝ))

/-- From datahandling.py, SpaceTimeData.__init__ conversion loop body:
a row [tau, t, r, theta, phi] becomes [tau, t, x, y, z] through
spherical_to_cartesian; rows of any other shape are left untouched
(the constructor only ever reaches length-5 rows). -/
noncomputable def convert_row (row : List ℝ) : List ℝ :=
  match row with
  | [tau, t, r, theta, phi] =>
    [tau, t, (spherical_to_cartesian r theta phi).1,
     (spherical_to_cartesian r theta phi).2.1,
     (spherical_to_cartesian r theta phi).2.2]
  | l => l

open scoped Classical in
/-- From datahandling.py, SpaceTimeData.__init__: raises ValueError
(message: dataset shape needs to be (N,5)!) unless the trajectory is an
N x 5 array, modelled as a list of rows of length 5; builds df only when
some entry of the trajectory is nonzero, mirroring the
trajectory.any() guard of the source. -/
noncomputable def SpaceTimeData.init (trajectory : List (List ℝ)) (rs : ℝ) :
    Except PyError SpaceTimeData :=
  if ∀ row ∈ trajectory, row.length = 5 then
    Except.ok
      { rs := rs
        max_num_anim_frames := 100
        df :=
          if ∃ row ∈ trajectory, ∃ v ∈ row, v ≠ 0 then
            some (trajectory.map convert_row)
          else
            none }
  else
    Except.error PyError.valueError

/-- From datahandling.py, SpaceTimeData.size: len(self.df.index). When
df was never created the attribute access raises AttributeError. -/
def SpaceTimeData.size (d : SpaceTimeData) : Except PyError ℕ :=
  match d.df with
  | some df => Except.ok df.length
  | none => Except.error PyError.attributeError

/-- Example solver trace used to exhibit the behaviour of the generator
loop: proper time advances by one per step, the radius stays at 100. -/
def ex_trace_time : ℕ → ℚ × (Fin 8 → ℚ) := fun k => ((k : ℚ), fun _ => 100)

/-- Example solver trace whose radius reaches the horizon border on the
first step: radius 100 initially, radius 1 after one step. -/
def ex_trace_infall : ℕ → ℚ × (Fin 8 → ℚ) :=
  fun k => ((k : ℚ), fun _ => 100 - 99 * (k : ℚ))

/-- Example solver trace used by the witness of the generator invariant:
proper time advances by one per step, radius stays at 50. -/
def ex_trace_far : ℕ → ℚ × (Fin 8 → ℚ) := fun k => ((k : ℚ), fun _ => 50)

/-- Helper: in Mathlib real arithmetic, the reciprocal of tan equals cot
unconditionally (both sides collapse to the same junk value when sin or
cos vanishes). -/
theorem one_div_tan_eq_cot (x : ℝ) : 1 / Real.tan x = Real.cot x := by
  rw [Real.tan_eq_sin_div_cos, Real.cot_eq_cos_div_sin, one_div_div]

/-- C3: for r outside 0 and -a and theta not a multiple of pi, the
Christoffel computation agrees entry by entry with the table of nine
closed-form component families listed by the specification, all other
entries being zero, and it is symmetric in its two lower indices. -/
theorem christoffel_symbols_match_spec_and_symmetric (a r theta : ℝ)
    (i j k : Fin 4) (hr0 : r ≠ 0) (hra : r ≠ -a)
    (hth : Real.sin theta ≠ 0) :
    calc_christoffel_symbols a r theta i j k
      = christoffel_symbols_spec a r theta i j k ∧
    calc_christoffel_symbols a r theta i j k
      = calc_christoffel_symbols a r theta i k j := by
  constructor
  · fin_cases i <;> fin_cases j <;> fin_cases k <;>
      first
        | rfl
        | exact one_div_tan_eq_cot theta
        | exact neg_one_mul (r + a)
        | exact congrArg (fun x => x * Real.sin theta ^ 2) (neg_one_mul (r + a))
        | exact (mul_assoc (-1) (Real.sin theta) (Real.cos theta)).trans
            (neg_one_mul _)
  · fin_cases i <;> fin_cases j <;> fin_cases k <;> rfl

/-- Witness for C3 at a = -1, r = 2, theta = pi / 2 and indices (0,0,1). -/
theorem christoffel_symbols_match_spec_and_symmetric_witness :
    ((2 : ℝ) ≠ 0 ∧ (2 : ℝ) ≠ -(-1) ∧ Real.sin (π / 2) ≠ 0) ∧
    (calc_christoffel_symbols (-1) 2 (π / 2) 0 0 1
        = christoffel_symbols_spec (-1) 2 (π / 2) 0 0 1 ∧
      calc_christoffel_symbols (-1) 2 (π / 2) 0 0 1
        = calc_christoffel_symbols (-1) 2 (π / 2) 0 1 0) :=
  ⟨⟨by norm_num, by norm_num, by rw [Real.sin_pi_div_two]; exact one_ne_zero⟩,
    christoffel_symbols_match_spec_and_symmetric (-1) 2 (π / 2) 0 0 1
      (by norm_num) (by norm_num)
      (by rw [Real.sin_pi_div_two]; exact one_ne_zero)⟩

/-- C4: the geodesic right-hand side copies the velocity components into
the position slots and fills the acceleration slots with the stated
Christoffel contractions evaluated at (state 1, state 2); it does not
depend on the proper-time argument. -/
theorem calc_next_velo_and_acc_vec_components (a tau1 tau2 : ℝ)
    (s : Fin 8 → ℝ) (hr0 : s 1 ≠ 0) (hra : s 1 ≠ -a)
    (hth : Real.sin (s 2) ≠ 0) :
    calc_next_velo_and_acc_vec a tau1 s 0 = s 4 ∧
    calc_next_velo_and_acc_vec a tau1 s 1 = s 5 ∧
    calc_next_velo_and_acc_vec a tau1 s 2 = s 6 ∧
    calc_next_velo_and_acc_vec a tau1 s 3 = s 7 ∧
    calc_next_velo_and_acc_vec a tau1 s 4 =
      -2 * calc_christoffel_symbols a (s 1) (s 2) 0 0 1 * s 4 * s 5 ∧
    calc_next_velo_and_acc_vec a tau1 s 5 =
      -(calc_christoffel_symbols a (s 1) (s 2) 1 0 0 * s 4 ^ 2
        + calc_christoffel_symbols a (s 1) (s 2) 1 1 1 * s 5 ^ 2
        + calc_christoffel_symbols a (s 1) (s 2) 1 2 2 * s 6 ^ 2
        + calc_christoffel_symbols a (s 1) (s 2) 1 3 3 * s 7 ^ 2) ∧
    calc_next_velo_and_acc_vec a tau1 s 6 =
      -2 * calc_christoffel_symbols a (s 1) (s 2) 2 2 1 * s 6 * s 5
        - calc_christoffel_symbols a (s 1) (s 2) 2 3 3 * s 7 ^ 2 ∧
    calc_next_velo_and_acc_vec a tau1 s 7 =
      -2 * (calc_christoffel_symbols a (s 1) (s 2) 3 1 3 * s 5 * s 7
        + calc_christoffel_symbols a (s 1) (s 2) 3 2 3 * s 6 * s 7) ∧
    calc_next_velo_and_acc_vec a tau1 s = calc_next_velo_and_acc_vec a tau2 s :=
  ⟨rfl, rfl, rfl, rfl, rfl, neg_one_mul _, rfl, rfl, funext fun _ => rfl⟩

/-- Witness for C4 at a = -1 and the constant state 2. -/
theorem calc_next_velo_and_acc_vec_components_witness :
    ((fun _ : Fin 8 => (2:ℝ)) 1 ≠ 0 ∧ (fun _ : Fin 8 => (2:ℝ)) 1 ≠ -(-1) ∧
      Real.sin ((fun _ : Fin 8 => (2:ℝ)) 2) ≠ 0) ∧
    calc_next_velo_and_acc_vec (-1) 0 (fun _ => 2) 0 = (fun _ : Fin 8 => (2:ℝ)) 4 ∧
    calc_next_velo_and_acc_vec (-1) 0 (fun _ => 2) 4 =
      -2 * calc_christoffel_symbols (-1) 2 2 0 0 1 * 2 * 2 ∧
    calc_next_velo_and_acc_vec (-1) 0 (fun _ => (2:ℝ))
      = calc_next_velo_and_acc_vec (-1) 1 (fun _ => 2) := by
  have hsin : Real.sin (2 : ℝ) ≠ 0 :=
    (Real.sin_pos_of_pos_of_lt_pi (by norm_num)
      (by linarith [Real.pi_gt_three])).ne'
  have h := calc_next_velo_and_acc_vec_components (-1) 0 1 (fun _ => 2)
    (by norm_num) (by norm_num) hsin
  exact ⟨⟨by norm_num, by norm_num, hsin⟩, h.1, h.2.2.2.2.1, h.2.2.2.2.2.2.2.2⟩

/-- C5: the initial dt/dtau is the nonnegative square root of the
normalization expression, and it is at least 1 whenever a = -rs is
negative and the initial radius exceeds rs = -a. -/
theorem calc_initial_dt_dtau_formula_and_time_dilation (a : ℝ)
    (vec_pos vec_v : Fin 3 → ℝ) (ha : a < 0) (hr : -a < vec_pos 0) :
    calc_initial_dt_dtau a vec_pos vec_v =
      Real.sqrt ((1 + 1 / (c ^ 2 * (1 + a / vec_pos 0)) * vec_v 0 ^ 2
        + vec_pos 0 ^ 2 / c ^ 2 * vec_v 1 ^ 2
        + vec_pos 0 ^ 2 / c ^ 2 * Real.sin (vec_pos 1) ^ 2 * vec_v 2 ^ 2)
        / (1 + a / vec_pos 0)) ∧
    1 ≤ calc_initial_dt_dtau a vec_pos vec_v := by
  have hformula : calc_initial_dt_dtau a vec_pos vec_v =
      Real.sqrt ((1 + 1 / (c ^ 2 * (1 + a / vec_pos 0)) * vec_v 0 ^ 2
        + vec_pos 0 ^ 2 / c ^ 2 * vec_v 1 ^ 2
        + vec_pos 0 ^ 2 / c ^ 2 * Real.sin (vec_pos 1) ^ 2 * vec_v 2 ^ 2)
        / (1 + a / vec_pos 0)) := rfl
  refine ⟨hformula, ?_⟩
  have hr0 : 0 < vec_pos 0 := lt_trans (by linarith) hr
  have hd : 0 < 1 + a / vec_pos 0 := by
    have h1 : -1 < a / vec_pos 0 := by
      rw [lt_div_iff hr0]
      linarith
    linarith
  have hd1 : 1 + a / vec_pos 0 < 1 := by
    have : a / vec_pos 0 < 0 := div_neg_of_neg_of_pos ha hr0
    linarith
  have hc2 : (0 : ℝ) < c ^ 2 := by norm_num [c]
  have ht1 : 0 ≤ 1 / (c ^ 2 * (1 + a / vec_pos 0)) * vec_v 0 ^ 2 :=
    mul_nonneg (one_div_nonneg.mpr (mul_pos hc2 hd).le) (sq_nonneg _)
  have ht2 : 0 ≤ vec_pos 0 ^ 2 / c ^ 2 * vec_v 1 ^ 2 :=
    mul_nonneg (div_nonneg (sq_nonneg _) hc2.le) (sq_nonneg _)
  have ht3 : 0 ≤ vec_pos 0 ^ 2 / c ^ 2 * Real.sin (vec_pos 1) ^ 2 * vec_v 2 ^ 2 :=
    mul_nonneg (mul_nonneg (div_nonneg (sq_nonneg _) hc2.le) (sq_nonneg _))
      (sq_nonneg _)
  rw [hformula]
  have hquot : 1 ≤ (1 + 1 / (c ^ 2 * (1 + a / vec_pos 0)) * vec_v 0 ^ 2
      + vec_pos 0 ^ 2 / c ^ 2 * vec_v 1 ^ 2
      + vec_pos 0 ^ 2 / c ^ 2 * Real.sin (vec_pos 1) ^ 2 * vec_v 2 ^ 2)
      / (1 + a / vec_pos 0) := by
    rw [le_div_iff hd]
    nlinarith
  calc (1 : ℝ) = Real.sqrt 1 := Real.sqrt_one.symm
    _ ≤ _ := Real.sqrt_le_sqrt hquot

/-- Witness for C5 at a = -1, position (2, pi / 2, 0), zero velocity. -/
theorem calc_initial_dt_dtau_formula_and_time_dilation_witness :
    ((-1 : ℝ) < 0 ∧ -(-1 : ℝ) < (fun _ : Fin 3 => (2:ℝ)) 0) ∧
    1 ≤ calc_initial_dt_dtau (-1) (fun _ => 2) (fun _ => 0) :=
  ⟨⟨by norm_num, by norm_num⟩,
    (calc_initial_dt_dtau_formula_and_time_dilation (-1) (fun _ => 2)
      (fun _ => 0) (by norm_num) (by norm_num)).2⟩

/-- C6: the Schwarzschild radius function returns 2 G M / c squared,
positive for positive mass; a metric instance stores this value and
schwarzschild_radius returns it (the instance record is immutable, no
operation of the embedding rebuilds it). -/
theorem schwarzschild_radius_formula_and_stored (M time : ℝ)
    (p v : Fin 3 → ℝ) (hM : 0 < M) :
    calc_schwarzschild_radius M = 2 * G * M / c ^ 2 ∧
    0 < calc_schwarzschild_radius M ∧
    (SchwarzschildMetric.init M p v time).toOption.map
        SchwarzschildMetric.schwarzschild_radius
      = some (calc_schwarzschild_radius M) := by
  refine ⟨rfl, ?_, rfl⟩
  have hG : (0 : ℝ) < G := by norm_num [G]
  have hc : (0 : ℝ) < c := by norm_num [c]
  unfold calc_schwarzschild_radius
  positivity

/-- Witness for C6 at the solar mass of the spec example. -/
theorem schwarzschild_radius_formula_and_stored_witness :
    (0 : ℝ) < 1.989e30 ∧
    (calc_schwarzschild_radius 1.989e30 = 2 * G * 1.989e30 / c ^ 2 ∧
      0 < calc_schwarzschild_radius 1.989e30 ∧
      (SchwarzschildMetric.init 1.989e30 (fun _ => 0) (fun _ => 0) 0).toOption.map
          SchwarzschildMetric.schwarzschild_radius
        = some (calc_schwarzschild_radius 1.989e30)) :=
  ⟨by norm_num,
    schwarzschild_radius_formula_and_stored 1.989e30 0 (fun _ => 0) (fun _ => 0)
      (by norm_num)⟩

/-- C2 counterexample: with M = 1 the Schwarzschild radius is positive,
so the initial position with r = 0 satisfies r ≤ rs (and its theta = 0
is a pole), yet construction succeeds: no DomainError is raised. -/
theorem schwarzschild_init_accepts_inadmissible_input :
    (SchwarzschildMetric.init 1 (fun _ => 0) (fun _ => 0) 0).toOption.isSome
      = true ∧
    (fun _ : Fin 3 => (0:ℝ)) 0 ≤ calc_schwarzschild_radius 1 ∧
    (0 : ℝ) < 1 := by
  refine ⟨rfl, ?_, by norm_num⟩
  have hG : (0 : ℝ) < G := by norm_num [G]
  have hc : (0 : ℝ) < c := by norm_num [c]
  have hpos : (0 : ℝ) < calc_schwarzschild_radius 1 := by
    unfold calc_schwarzschild_radius
    positivity
  exact hpos.le

/-- C2 (amended): construction never fails; for every input, admissible
or not, it returns the assembled initial 8-component state
[t, r, theta, phi, dt/dtau, vr, vtheta, vphi]; no domain validation is
performed. -/
theorem schwarzschild_init_total (M time : ℝ) (p v : Fin 3 → ℝ) :
    (SchwarzschildMetric.init M p v time).toOption.isSome = true ∧
    (SchwarzschildMetric.init M p v time).toOption.map
        (fun m => (m.initial_vec_x_u 0, m.initial_vec_x_u 1,
          m.initial_vec_x_u 2, m.initial_vec_x_u 3, m.initial_vec_x_u 4,
          m.initial_vec_x_u 5, m.initial_vec_x_u 6, m.initial_vec_x_u 7))
      = some (time, p 0, p 1, p 2,
          calc_initial_dt_dtau (-calc_schwarzschild_radius M) p v,
          v 0, v 1, v 2) :=
  ⟨rfl, rfl⟩

/-- C8: the generator hands the requested step size to the solver as
first_step = 0.75 step, max_step = 5 step, rtol = 0.25 step. -/
theorem trajectory_generator_step_policy (proptime_start step_size : ℝ)
    (h : 0 < step_size) :
    (trajectory_generator_solver_params proptime_start step_size).first_step
        = 0.75 * step_size ∧
    (trajectory_generator_solver_params proptime_start step_size).max_step
        = 5 * step_size ∧
    (trajectory_generator_solver_params proptime_start step_size).rtol
        = 0.25 * step_size :=
  ⟨rfl, rfl, rfl⟩

/-- Witness for C8 at step size 1. -/
theorem trajectory_generator_step_policy_witness :
    (0 : ℝ) < 1 ∧
    ((trajectory_generator_solver_params 0 1).first_step = 0.75 * 1 ∧
      (trajectory_generator_solver_params 0 1).max_step = 5 * 1 ∧
      (trajectory_generator_solver_params 0 1).rtol = 0.25 * 1) :=
  ⟨zero_lt_one, trajectory_generator_step_policy 0 1 zero_lt_one⟩

/-- Helper: when the solver trace first triggers the stop check at index
K (and at no earlier post-step index), the generator loop started at
index k < K with enough fuel yields exactly the trace samples k to
K - 1. -/
theorem trajectory_yields_eq_range (step : ℕ → ℚ × (Fin 8 → ℚ)) (T a : ℚ)
    (K : ℕ)
    (hstop : stop_after_step T a (step K).1 (step K).2 = true)
    (hmin : ∀ j, 1 ≤ j → j < K →
      stop_after_step T a (step j).1 (step j).2 = false) :
    ∀ fuel k, k < K → K ≤ k + fuel →
      trajectory_yields step T a k fuel = (List.range' k (K - k)).map step := by
  intro fuel
  induction fuel with
  | zero => intro k hk hK; omega
  | succ n ih =>
    intro k hk hK
    have hkey : trajectory_yields step T a k (n + 1) = step k ::
        (if stop_after_step T a (step (k + 1)).1 (step (k + 1)).2 then []
         else trajectory_yields step T a (k + 1) n) := rfl
    rcases eq_or_lt_of_le (Nat.succ_le_of_lt hk) with heq | hlt
    · have heq' : k + 1 = K := heq
      rw [hkey, if_pos (by rw [heq']; exact hstop)]
      have hKk : K - k = 1 := by omega
      rw [hKk]
      rfl
    · rw [hkey, if_neg (by rw [hmin (k + 1) (by omega) hlt]; simp)]
      rw [ih (k + 1) hlt (by omega)]
      have hKk : K - k = (K - (k + 1)) + 1 := by omega
      rw [hKk, List.range'_succ, List.map_cons]

/-- C10: a terminating generator run with first trigger at internal step
K yields exactly the solver states 0 to K - 1: at least one sample (the
initial one, unconditionally, since the checks only run after a step),
every later yielded sample has tau below proptime_end and radius above
1.01 rs, and the triggering state at index K is not among the K yielded
samples. -/
theorem trajectory_generator_yield_invariant (step : ℕ → ℚ × (Fin 8 → ℚ))
    (proptime_end rs : ℚ) (K fuel i : ℕ) (hK : 1 ≤ K)
    (hstop : stop_after_step proptime_end (-rs) (step K).1 (step K).2 = true)
    (hmin : ∀ j, 1 ≤ j → j < K →
      stop_after_step proptime_end (-rs) (step j).1 (step j).2 = false)
    (hfuel : K ≤ fuel) :
    trajectory_yields step proptime_end (-rs) 0 fuel
      = (List.range K).map step ∧
    (trajectory_yields step proptime_end (-rs) 0 fuel).head?
      = some (step 0) ∧
    (1 ≤ i → i < K →
      (step i).1 < proptime_end ∧ 1.01 * rs < (step i).2 1) ∧
    (trajectory_yields step proptime_end (-rs) 0 fuel).length = K := by
  have hmain := trajectory_yields_eq_range step proptime_end (-rs) K hstop
    hmin fuel 0 (by omega) (by omega)
  rw [Nat.sub_zero, ← List.range_eq_range'] at hmain
  refine ⟨hmain, ?_, ?_, ?_⟩
  · rw [hmain]
    obtain ⟨K', rfl⟩ : ∃ K', K = K' + 1 := ⟨K - 1, by omega⟩
    rw [List.range_eq_range', List.range'_succ, List.map_cons, List.head?_cons]
  · intro h1 h2
    have hi := hmin i h1 h2
    simp only [stop_after_step, Bool.or_eq_false_iff,
      decide_eq_false_iff_not, not_le] at hi
    refine ⟨hi.1, ?_⟩
    have := hi.2
    linarith
  · rw [hmain, List.length_map, List.length_range]

/-- Witness for C10: trace with unit time steps at constant radius 50,
proptime_end 2, rs 1; the run stops after the internal second step. -/
theorem trajectory_generator_yield_invariant_witness :
    trajectory_yields ex_trace_far 2 (-1) 0 2
      = (List.range 2).map ex_trace_far ∧
    (trajectory_yields ex_trace_far 2 (-1) 0 2).head?
      = some (ex_trace_far 0) ∧
    (1 ≤ 1 → 1 < 2 →
      (ex_trace_far 1).1 < 2 ∧ 1.01 * 1 < (ex_trace_far 1).2 1) ∧
    (trajectory_yields ex_trace_far 2 (-1) 0 2).length = 2 :=
  trajectory_generator_yield_invariant ex_trace_far 2 1 2 2 1
    (by norm_num)
    (by norm_num [stop_after_step, ex_trace_far])
    (fun j h1 h2 => by
      have hj : j = 1 := by omega
      subst hj
      norm_num [stop_after_step, ex_trace_far])
    (by norm_num)

/-- C1 (amended): a terminating run stops because an internal step
reached tau at least proptime_end or radius at most 1.01 rs, but that
triggering state is not yielded: the last yielded sample is the state
one step before the trigger, and when it is not the initial sample it
still has tau below proptime_end and radius above 1.01 rs, so the
boundary point never appears in the yielded sequence. -/
theorem trajectory_generator_boundary_not_yielded
    (step : ℕ → ℚ × (Fin 8 → ℚ)) (proptime_end rs : ℚ) (K fuel : ℕ)
    (hK : 1 ≤ K)
    (hstop : stop_after_step proptime_end (-rs) (step K).1 (step K).2 = true)
    (hmin : ∀ j, 1 ≤ j → j < K →
      stop_after_step proptime_end (-rs) (step j).1 (step j).2 = false)
    (hfuel : K ≤ fuel) :
    (trajectory_yields step proptime_end (-rs) 0 fuel).getLast?
      = some (step (K - 1)) ∧
    (proptime_end ≤ (step K).1 ∨ (step K).2 1 ≤ 1.01 * rs) ∧
    (2 ≤ K →
      (step (K - 1)).1 < proptime_end ∧ 1.01 * rs < (step (K - 1)).2 1) := by
  have hmain := trajectory_yields_eq_range step proptime_end (-rs) K hstop
    hmin fuel 0 (by omega) (by omega)
  rw [Nat.sub_zero, ← List.range_eq_range'] at hmain
  refine ⟨?_, ?_, ?_⟩
  · rw [hmain, List.getLast?_eq_getElem?, List.length_map, List.length_range,
      List.getElem?_map, List.getElem?_range (by omega : K - 1 < K)]
    rfl
  · simp only [stop_after_step, Bool.or_eq_true, decide_eq_true_eq] at hstop
    rcases hstop with h | h
    · exact Or.inl h
    · right
      linarith
  · intro h2
    have hi := hmin (K - 1) (by omega) (by omega)
    simp only [stop_after_step, Bool.or_eq_false_iff,
      decide_eq_false_iff_not, not_le] at hi
    refine ⟨hi.1, ?_⟩
    have := hi.2
    linarith

/-- Witness for the amended C1: infalling trace that hits the horizon
border on its first internal step (radius 1 at step 1 with rs = 1,
border 1.01), proptime_end 100. -/
theorem trajectory_generator_boundary_not_yielded_witness :
    (trajectory_yields ex_trace_infall 100 (-1) 0 1).getLast?
      = some (ex_trace_infall (1 - 1)) ∧
    (100 ≤ (ex_trace_infall 1).1 ∨ (ex_trace_infall 1).2 1 ≤ 1.01 * 1) ∧
    (2 ≤ 1 →
      (ex_trace_infall (1 - 1)).1 < 100 ∧
        1.01 * 1 < (ex_trace_infall (1 - 1)).2 1) :=
  trajectory_generator_boundary_not_yielded ex_trace_infall 100 1 1 1
    (by norm_num)
    (by norm_num [stop_after_step, ex_trace_infall])
    (fun j h1 h2 => absurd (h1.trans_lt h2) (lt_irrefl 1))
    (by norm_num)

/-- C1 counterexample: a concrete terminating run (unit time steps,
constant radius 100, proptime_end 2, rs 1). The run stops because the
internal step to proper time 2 triggers the end check, yet the final
yielded sample has proper time 1, strictly below 2, and radius 100,
strictly above 1.01, so the run ends with its final sample strictly
inside both bounds and the boundary point never appears in the yielded
sequence. -/
theorem trajectory_generator_run_past_boundary_cex :
    trajectory_yields ex_trace_time 2 (-1) 0 5
      = [ex_trace_time 0, ex_trace_time 1] ∧
    stop_after_step 2 (-1) (ex_trace_time 2).1 (ex_trace_time 2).2 = true ∧
    (trajectory_yields ex_trace_time 2 (-1) 0 5).getLast?
      = some ((1 : ℚ), fun _ => 100) ∧
    ¬((2 : ℚ) ≤ (1 : ℚ)) ∧ ¬((100 : ℚ) ≤ 1.01 * 1) := by
  have hlist : trajectory_yields ex_trace_time 2 (-1) 0 5
      = [ex_trace_time 0, ex_trace_time 1] := by
    have h1 : stop_after_step 2 (-1) (ex_trace_time 1).1 (ex_trace_time 1).2
        = false := by
      norm_num [stop_after_step, ex_trace_time]
    have h2 : stop_after_step 2 (-1) (ex_trace_time 2).1 (ex_trace_time 2).2
        = true := by
      norm_num [stop_after_step, ex_trace_time]
    show ex_trace_time 0 ::
        (if stop_after_step 2 (-1) (ex_trace_time 1).1 (ex_trace_time 1).2
          then []
          else ex_trace_time 1 ::
            (if stop_after_step 2 (-1) (ex_trace_time 2).1 (ex_trace_time 2).2
              then []
              else trajectory_yields ex_trace_time 2 (-1) 2 3))
      = [ex_trace_time 0, ex_trace_time 1]
    rw [h1, h2]
    rfl
  refine ⟨hlist, by norm_num [stop_after_step, ex_trace_time], ?_,
    by norm_num, by norm_num⟩
  rw [hlist]
  simp [ex_trace_time]

/-- C7: the code contradicts its own test on SpaceTimeData. Evaluating
the constructor at the failing input, the 1 x 5 all-zero trajectory: the
shape check passes, but the trajectory.any() guard skips creating df,
so size raises AttributeError instead of returning the row count 1. -/
theorem spacetimedata_size_fails_on_zero_array :
    (SpaceTimeData.init [[0, 0, 0, 0, 0]] 1).toOption.map SpaceTimeData.size
      = some (Except.error PyError.attributeError) ∧
    (SpaceTimeData.init [[0, 0, 0, 0, 0]] 1).toOption.map SpaceTimeData.size
      ≠ some (Except.ok 1) := by
  have h : SpaceTimeData.init [[0, 0, 0, 0, 0]] 1 =
      Except.ok { rs := 1, max_num_anim_frames := 100, df := none } := by
    unfold SpaceTimeData.init
    rw [if_pos (by simp), if_neg (by simp)]
  rw [h]
  exact ⟨rfl, fun hc => Except.noConfusion (Option.some.inj hc)⟩

/-- Helper: atan2 is invariant under scaling both arguments by a
positive factor. -/
theorem atan2_mul_of_pos (k y x : ℝ) (hk : 0 < k) :
    atan2 (k * y) (k * x) = atan2 y x := by
  have hdiv : k * y / (k * x) = y / x := by
    rcases eq_or_ne x 0 with hx | hx
    · rw [hx, mul_zero, div_zero, div_zero]
    · field_simp
      ring
  rcases lt_trichotomy 0 x with hx | hx | hx
  · have hL : atan2 (k * y) (k * x) = Real.arctan (k * y / (k * x)) :=
      if_pos (mul_pos hk hx)
    have hR : atan2 y x = Real.arctan (y / x) := if_pos hx
    rw [hL, hR, hdiv]
  · subst hx
    rw [mul_zero]
    have hE : ∀ z : ℝ, atan2 z 0
        = (if 0 < z then π / 2 else if z < 0 then -(π / 2) else 0) := by
      intro z
      unfold atan2
      rw [if_neg (lt_irrefl 0), if_neg (lt_irrefl 0)]
    rw [hE, hE]
    rcases lt_trichotomy 0 y with hy | hy | hy
    · rw [if_pos (mul_pos hk hy), if_pos hy]
    · rw [← hy, mul_zero]
    · rw [if_neg (lt_asymm (mul_neg_of_pos_of_neg hk hy)),
        if_neg (lt_asymm hy), if_pos (mul_neg_of_pos_of_neg hk hy), if_pos hy]
  · have hkx : k * x < 0 := mul_neg_of_pos_of_neg hk hx
    have hL : atan2 (k * y) (k * x) =
        (if 0 ≤ k * y then Real.arctan (k * y / (k * x)) + π
         else Real.arctan (k * y / (k * x)) - π) := by
      unfold atan2
      rw [if_neg (lt_asymm hkx), if_pos hkx]
    have hR : atan2 y x =
        (if 0 ≤ y then Real.arctan (y / x) + π
         else Real.arctan (y / x) - π) := by
      unfold atan2
      rw [if_neg (lt_asymm hx), if_pos hx]
    rw [hL, hR, hdiv]
    rcases le_or_lt 0 y with hy | hy
    · rw [if_pos (mul_nonneg hk.le hy), if_pos hy]
    · rw [if_neg (not_le.mpr (mul_neg_of_pos_of_neg hk hy)),
        if_neg (not_le.mpr hy)]

/-- Helper: on the fundamental interval, atan2 applied to (sin, cos)
recovers the angle. -/
theorem atan2_sin_cos_of_mem (ψ : ℝ) (h1 : -π < ψ) (h2 : ψ ≤ π) :
    atan2 (Real.sin ψ) (Real.cos ψ) = ψ := by
  rcases lt_trichotomy 0 (Real.cos ψ) with hc | hc | hc
  · have hb1 : -(π / 2) < ψ := by
      by_contra hcon
      push_neg at hcon
      have hneg : Real.cos ψ ≤ 0 := by
        have h := Real.cos_nonpos_of_pi_div_two_le_of_le
          (x := -ψ) (by linarith) (by linarith)
        rwa [Real.cos_neg] at h
      linarith
    have hb2 : ψ < π / 2 := by
      by_contra hcon
      push_neg at hcon
      have hneg : Real.cos ψ ≤ 0 :=
        Real.cos_nonpos_of_pi_div_two_le_of_le hcon (by linarith [Real.pi_pos])
      linarith
    have hL : atan2 (Real.sin ψ) (Real.cos ψ)
        = Real.arctan (Real.sin ψ / Real.cos ψ) := if_pos hc
    rw [hL, ← Real.tan_eq_sin_div_cos]
    exact Real.arctan_tan hb1 hb2
  · have hψ : ψ = π / 2 ∨ ψ = -(π / 2) := by
      rcases Real.cos_eq_zero_iff.mp hc.symm with ⟨n, hn⟩
      have hpi := Real.pi_pos
      have hl1 : (-2 : ℝ) < 2 * (n : ℝ) + 1 := by
        by_contra hcon
        push_neg at hcon
        have hmul : (2 * (n : ℝ) + 1) * (π / 2) ≤ -2 * (π / 2) :=
          mul_le_mul_of_nonneg_right hcon (by linarith)
        rw [hn] at h1
        nlinarith
      have hl2 : 2 * (n : ℝ) + 1 ≤ 2 := by
        by_contra hcon
        push_neg at hcon
        have hmul : 2 * (π / 2) ≤ (2 * (n : ℝ) + 1) * (π / 2) :=
          mul_le_mul_of_nonneg_right hcon.le (by linarith)
        rw [hn] at h2
        nlinarith
      have hz1 : (-2 : ℤ) < 2 * n + 1 := by exact_mod_cast hl1
      have hz2 : (2 : ℤ) * n + 1 ≤ 2 := by exact_mod_cast hl2
      have hn01 : n = 0 ∨ n = -1 := by omega
      rcases hn01 with h0 | h0
      · left
        rw [hn, h0]
        push_cast
        ring
      · right
        rw [hn, h0]
        push_cast
        ring
    rcases hψ with hψ | hψ
    · subst hψ
      rw [Real.sin_pi_div_two, Real.cos_pi_div_two]
      unfold atan2
      rw [if_neg (lt_irrefl 0), if_neg (lt_irrefl 0), if_pos one_pos]
    · subst hψ
      rw [Real.cos_neg, Real.sin_neg, Real.sin_pi_div_two, Real.cos_pi_div_two]
      unfold atan2
      rw [if_neg (lt_irrefl 0), if_neg (lt_irrefl 0),
        if_neg (by norm_num : ¬ (0 : ℝ) < -1), if_pos (by norm_num : (-1 : ℝ) < 0)]
  · rcases le_or_lt 0 (Real.sin ψ) with hs | hs
    · have hψ0 : 0 ≤ ψ := by
        by_contra hcon
        push_neg at hcon
        exact absurd (Real.sin_neg_of_neg_of_neg_pi_lt hcon h1)
          (not_lt.mpr hs)
      have hψb : π / 2 < ψ := by
        by_contra hcon
        push_neg at hcon
        have : 0 ≤ Real.cos ψ :=
          Real.cos_nonneg_of_mem_Icc ⟨by linarith [Real.pi_pos], hcon⟩
        linarith
      have hL : atan2 (Real.sin ψ) (Real.cos ψ)
          = Real.arctan (Real.sin ψ / Real.cos ψ) + π := by
        unfold atan2
        rw [if_neg (lt_asymm hc), if_pos hc, if_pos hs]
      rw [hL]
      have htan : Real.sin ψ / Real.cos ψ = Real.tan (ψ - π) := by
        rw [← Real.tan_eq_sin_div_cos]
        exact (Real.tan_periodic.sub_eq ψ).symm
      rw [htan, Real.arctan_tan (by linarith) (by linarith [Real.pi_pos])]
      ring
    · have hψ0 : ψ < 0 := by
        by_contra hcon
        push_neg at hcon
        exact absurd (Real.sin_nonneg_of_nonneg_of_le_pi hcon h2)
          (not_le.mpr hs)
      have hψb : ψ < -(π / 2) := by
        by_contra hcon
        push_neg at hcon
        have : 0 ≤ Real.cos ψ :=
          Real.cos_nonneg_of_mem_Icc ⟨hcon, by linarith [Real.pi_pos]⟩
        linarith
      have hL : atan2 (Real.sin ψ) (Real.cos ψ)
          = Real.arctan (Real.sin ψ / Real.cos ψ) - π := by
        unfold atan2
        rw [if_neg (lt_asymm hc), if_pos hc, if_neg (not_le.mpr hs)]
      rw [hL]
      have htan : Real.sin ψ / Real.cos ψ = Real.tan (ψ + π) := by
        rw [← Real.tan_eq_sin_div_cos]
        exact (Real.tan_periodic ψ).symm
      rw [htan, Real.arctan_tan (by linarith [Real.pi_pos]) (by linarith)]
      ring

/-- Helper: as an angle modulo two pi, atan2 of (sin, cos) is the
original angle. -/
theorem atan2_sin_cos_coe_angle (φ : ℝ) :
    ((atan2 (Real.sin φ) (Real.cos φ) : ℝ) : Real.Angle) = (φ : Real.Angle) := by
  have hp : 0 < 2 * π := Real.two_pi_pos
  have hmem := toIocMod_mem_Ioc hp (-π) φ
  set ψ := toIocMod hp (-π) φ with hψdef
  have hm1 : -π < ψ := hmem.1
  have hm2 : ψ ≤ π := by
    have h := hmem.2
    linarith
  have hsub : φ - ψ = toIocDiv hp (-π) φ • (2 * π) := self_sub_toIocMod hp (-π) φ
  set n := toIocDiv hp (-π) φ with hndef
  have hφeq : φ = ψ + (n : ℝ) * (2 * π) := by
    rw [zsmul_eq_mul] at hsub
    linarith
  have hsin : Real.sin φ = Real.sin ψ := by
    rw [hφeq, Real.sin_add_int_mul_two_pi]
  have hcos : Real.cos φ = Real.cos ψ := by
    rw [hφeq, Real.cos_add_int_mul_two_pi]
  rw [hsin, hcos, atan2_sin_cos_of_mem ψ hm1 hm2]
  rw [Real.Angle.angle_eq_iff_two_pi_dvd_sub]
  refine ⟨-n, ?_⟩
  rw [hφeq]
  push_cast
  ring

/-- C9: converting a spherical position with positive radius and polar
angle strictly between 0 and pi to Cartesian coordinates and back with
the standard inverse recovers the radius, the polar angle, and the
azimuth modulo two pi. -/
theorem spherical_to_cartesian_round_trip (r theta phi : ℝ) (hr : 0 < r)
    (ht1 : 0 < theta) (ht2 : theta < π) :
    (cartesian_to_spherical (spherical_to_cartesian r theta phi).1
        (spherical_to_cartesian r theta phi).2.1
        (spherical_to_cartesian r theta phi).2.2).1 = r ∧
    (cartesian_to_spherical (spherical_to_cartesian r theta phi).1
        (spherical_to_cartesian r theta phi).2.1
        (spherical_to_cartesian r theta phi).2.2).2.1 = theta ∧
    (((cartesian_to_spherical (spherical_to_cartesian r theta phi).1
        (spherical_to_cartesian r theta phi).2.1
        (spherical_to_cartesian r theta phi).2.2).2.2 : ℝ) : Real.Angle)
      = (phi : Real.Angle) := by
  have hsq : (r * Real.sin theta * Real.cos phi) ^ 2
      + (r * Real.sin theta * Real.sin phi) ^ 2
      + (r * Real.cos theta) ^ 2 = r ^ 2 := by
    have h1 := Real.sin_sq_add_cos_sq theta
    have h2 := Real.sin_sq_add_cos_sq phi
    linear_combination (r ^ 2 * Real.sin theta ^ 2) * h2 + r ^ 2 * h1
  have hsqrt : Real.sqrt ((r * Real.sin theta * Real.cos phi) ^ 2
      + (r * Real.sin theta * Real.sin phi) ^ 2
      + (r * Real.cos theta) ^ 2) = r := by
    rw [hsq]
    exact Real.sqrt_sq hr.le
  refine ⟨hsqrt, ?_, ?_⟩
  · show Real.arccos ((r * Real.cos theta)
        / Real.sqrt ((r * Real.sin theta * Real.cos phi) ^ 2
          + (r * Real.sin theta * Real.sin phi) ^ 2
          + (r * Real.cos theta) ^ 2)) = theta
    rw [hsqrt, mul_comm r (Real.cos theta), mul_div_cancel_right₀ _ hr.ne']
    exact Real.arccos_cos ht1.le ht2.le
  · show ((atan2 (r * Real.sin theta * Real.sin phi)
        (r * Real.sin theta * Real.cos phi) : ℝ) : Real.Angle)
      = (phi : Real.Angle)
    have hrs : 0 < r * Real.sin theta :=
      mul_pos hr (Real.sin_pos_of_pos_of_lt_pi ht1 ht2)
    rw [atan2_mul_of_pos (r * Real.sin theta) (Real.sin phi) (Real.cos phi) hrs]
    exact atan2_sin_cos_coe_angle phi

/-- Witness for C9 at r = 1, theta = pi / 2, phi = 0. -/
theorem spherical_to_cartesian_round_trip_witness :
    ((0 : ℝ) < 1 ∧ (0 : ℝ) < π / 2 ∧ π / 2 < π) ∧
    ((cartesian_to_spherical (spherical_to_cartesian 1 (π / 2) 0).1
        (spherical_to_cartesian 1 (π / 2) 0).2.1
        (spherical_to_cartesian 1 (π / 2) 0).2.2).1 = 1 ∧
      (cartesian_to_spherical (spherical_to_cartesian 1 (π / 2) 0).1
        (spherical_to_cartesian 1 (π / 2) 0).2.1
        (spherical_to_cartesian 1 (π / 2) 0).2.2).2.1 = π / 2 ∧
      (((cartesian_to_spherical (spherical_to_cartesian 1 (π / 2) 0).1
        (spherical_to_cartesian 1 (π / 2) 0).2.1
        (spherical_to_cartesian 1 (π / 2) 0).2.2).2.2 : ℝ) : Real.Angle)
        = ((0 : ℝ) : Real.Angle)) :=
  ⟨⟨one_pos, half_pos Real.pi_pos, half_lt_self Real.pi_pos⟩,
    spherical_to_cartesian_round_trip 1 (π / 2) 0 one_pos
      (half_pos Real.pi_pos) (half_lt_self Real.pi_pos)⟩
